import Mathlib

/-!
Verification of the AllIndiaPincode lookup service.

The development shallowly embeds the two source files:

* `validations.py` — `validate_pincode`, which converts the supplied key
  with Python's `int(...)`, measures its decimal length with
  `math.floor(math.log10(n)) + 1`, and accepts exactly the six-digit
  positive integers.  Both a failed `int` conversion and the
  `ValueError` that `math.log10` raises on a non-positive argument land
  in the same `except ValueError` handler.

* `core.py` — the `LoadData` pipeline (`read_csv` with a column subset,
  `change_datatype`, `regex_on_column`, `format_csv_data`,
  `filter_by_pincode`, `setup_things`) and the `MySingleton` holder.

Machine integers are modelled as `Int`/`Nat`.  `math.log10` on a
positive integer is modelled by `Nat.log 10`, which agrees with
`floor (log10 n)` throughout the six-digit range the program cares
about.  Regex patterns are modelled as literal strings: `re`'s
`str.replace(pat, "", regex=True)` on a metacharacter-free pattern
deletes the leftmost non-overlapping occurrences of the literal, which
is exactly `removeAll` below.  The `float` member of the datatype rule
alphabet is omitted (floating point is outside the embedding; no claim
mentions it).
-/

namespace Pincode

/-! ## Python scalar helpers -/

/-- Whitespace characters stripped by Python's `int(str)` conversion
(ASCII fragment). -/
def isPySpace (c : Char) : Bool :=
  c = ' ' || c = '\t' || c = '\n' || c = '\r' || c = '\x0b' || c = '\x0c'

/-- Strip leading and trailing whitespace, as `int(str)` does. -/
def pyStrip (cs : List Char) : List Char :=
  ((cs.dropWhile isPySpace).reverse.dropWhile isPySpace).reverse

/-- Value of a digit character. -/
def digitVal (c : Char) : Nat := c.toNat - 48

/-- Read a non-empty all-digit character list as a natural number;
`none` mirrors `int(...)` raising `ValueError`. -/
def strToNatDigits (cs : List Char) : Option Nat :=
  if cs ≠ [] ∧ cs.all Char.isDigit then
    some (cs.foldl (fun acc c => 10 * acc + digitVal c) 0)
  else
    none

/-- Python's `int(s)` on a string: optional surrounding whitespace, an
optional sign, then decimal digits.  `none` models `ValueError`. -/
def pyParseInt (s : String) : Option Int :=
  match pyStrip s.toList with
  | [] => none
  | c :: rest =>
    if c = '-' then (strToNatDigits rest).map (fun n => -(n : Int))
    else if c = '+' then (strToNatDigits rest).map (fun n => (n : Int))
    else (strToNatDigits (c :: rest)).map (fun n => (n : Int))

/-! ## validations.py -/

/-- The dictionary returned by `validate_pincode`: a `status` flag and
the optional `content` message. -/
structure ValidationResponse where
  status : Bool
  content : Option String
deriving DecidableEq, Repr

/-- `validate_pincode` from `validations.py`.  The `try` block converts
the input with `int(...)` and computes
`math.floor(math.log10(n)) + 1`; `math.log10` raises `ValueError` on a
non-positive argument, and that exception is caught by the very same
handler as a failed conversion, producing "Invalid pincode.". -/
def validate_pincode (pincode : String) : ValidationResponse :=
  match pyParseInt pincode with
  | some n =>
    if 0 < n then
      if Nat.log 10 n.toNat + 1 = 6 then
        { status := true, content := none }
      else
        { status := false, content := some "Pincode must contain only 6 digits." }
    else
      { status := false, content := some "Invalid pincode." }
  | none => { status := false, content := some "Invalid pincode." }

/-- Input classification used by the claims: exactly six numeric
digits. -/
def isSixDigitNumeric (s : String) : Bool :=
  s.toList.length == 6 && s.toList.all Char.isDigit

/-- Decimal digit count of an integer (of its absolute value); the
quantity the spec calls "decimal digit count". -/
def decimalDigitCount (n : Int) : Nat :=
  Nat.log 10 n.natAbs + 1

theorem decimalDigitCount_eq (n : Int) :
    decimalDigitCount n = Nat.log 10 n.natAbs + 1 := rfl

/-! ## core.py data model

A pandas cell holds a Python scalar; after `read_csv` the columns the
program works with hold strings, integers or booleans.  `float` cells
are outside the embedding (no rule in the program's claims uses them).
A `DataFrame` is its ordered column list plus its rows; each row is an
association list from column name to cell value, in column order. -/

inductive Value where
  | vStr (s : String)
  | vInt (n : Int)
  | vBool (b : Bool)
deriving DecidableEq, Repr

inductive Datatype where
  | string
  | int
  | bool
deriving DecidableEq, Repr

def Value.typeOf : Value → Datatype
  | .vStr _ => .string
  | .vInt _ => .int
  | .vBool _ => .bool

/-- Python's `str(x)` on a cell. -/
def pyStr : Value → String
  | .vStr s => s
  | .vInt n => toString n
  | .vBool b => if b then "True" else "False"

/-- Python's `bool(x)` on a cell. -/
def pyTruthy : Value → Bool
  | .vStr s => s ≠ ""
  | .vInt n => n ≠ 0
  | .vBool b => b

/-- One cell under `astype` with the target class from
`datatype_class`; `none` models the conversion raising (fatal during
setup, per the spec's LoadError). -/
def coerceValue : Datatype → Value → Option Value
  | .string, v => some (.vStr (pyStr v))
  | .int, .vInt n => some (.vInt n)
  | .int, .vBool b => some (.vInt (if b then 1 else 0))
  | .int, .vStr s => (pyParseInt s).map Value.vInt
  | .bool, v => some (.vBool (pyTruthy v))

/-- Delete the leftmost non-overlapping occurrences of `p` from the
character list, as `re.sub(p, "", s)` does for a literal pattern.  The
fuel argument only serves structural recursion; with fuel ≥ length the
scan never exhausts it. -/
def removeAllAux (p : List Char) : Nat → List Char → List Char
  | 0, s => s
  | _ + 1, [] => []
  | fuel + 1, c :: cs =>
    if 0 < p.length ∧ p.isPrefixOf (c :: cs) then
      removeAllAux p fuel (List.drop p.length (c :: cs))
    else
      c :: removeAllAux p fuel cs

/-- `str.replace(pat, "", regex=True)` for a metacharacter-free
pattern: remove every leftmost non-overlapping match. -/
def removeAll (pat s : String) : String :=
  String.mk (removeAllAux pat.toList (s.toList.length + 1) s.toList)

/-- Does the (literal) pattern match anywhere inside the string, i.e.
start at some position?  Used to state the spec's "no cell contains a
substring matching its column's regex rule". -/
def containsMatch (pat s : String) : Bool :=
  (List.range (s.toList.length + 1)).any
    (fun i => pat.toList.isPrefixOf (s.toList.drop i))

inductive FormatMode where
  | title
  | upper
  | lower
  | capitalize
deriving DecidableEq, Repr

/-- Python's `str.title` (ASCII fragment): uppercase a letter that
follows a non-letter, lowercase a letter that follows a letter. -/
def pyTitleAux : Bool → List Char → List Char
  | _, [] => []
  | prevAlpha, c :: cs =>
    if c.isAlpha then
      (if prevAlpha then c.toLower else c.toUpper) :: pyTitleAux true cs
    else
      c :: pyTitleAux false cs

/-- The `string_methods` table of `format_csv_data`. -/
def applyFormat : FormatMode → String → String
  | .title, s => String.mk (pyTitleAux false s.toList)
  | .upper, s => String.map Char.toUpper s
  | .lower, s => String.map Char.toLower s
  | .capitalize, s =>
    match s.toList with
    | [] => ""
    | c :: cs => String.mk (c.toUpper :: cs.map Char.toLower)

/-- The `.str.replace(regex, "", regex=True)` step on one cell; the
`.str` accessor raises on a non-string column, modelled by `none`. -/
def regexCell (pat : String) : Value → Option Value
  | .vStr s => some (.vStr (removeAll pat s))
  | _ => none

/-- `column.apply(string_methods[method])` on one cell; an unbound
`str` method raises `TypeError` on a non-string cell, modelled by
`none`. -/
def formatCell (m : FormatMode) : Value → Option Value
  | .vStr s => some (.vStr (applyFormat m s))
  | _ => none

/-- One dataset row: column name to cell value, in column order. -/
abbrev Row := List (String × Value)

structure DataFrame where
  cols : List String
  rows : List Row
deriving DecidableEq, Repr

/-- First-match lookup in an association list (a row, or the modelled
file system). -/
def lookupStr {β : Type} : List (String × β) → String → Option β
  | [], _ => none
  | (k, v) :: rest, key => if k = key then some v else lookupStr rest key

/-- Rewrite the cell(s) of column `c` in one row with `f`; `none` if
`f` fails on one of them. -/
def updateCell (c : String) (f : Value → Option Value) : Row → Option Row
  | [] => some []
  | (k, v) :: rest =>
    if k = c then
      match f v, updateCell c f rest with
      | some w, some rest' => some ((k, w) :: rest')
      | _, _ => none
    else
      match updateCell c f rest with
      | some rest' => some ((k, v) :: rest')
      | none => none

/-- Map a fallible function over a list, failing when any element
fails. -/
def mapOption {α β : Type} (f : α → Option β) : List α → Option (List β)
  | [] => some []
  | a :: as =>
    match f a, mapOption f as with
    | some b, some bs => some (b :: bs)
    | _, _ => none

/-- Assign `df[c] = df[c]` transformed by `f`: every row is rewritten;
a missing column is a `KeyError` (none). -/
def applyRule (c : String) (f : Value → Option Value) (df : DataFrame) : Option DataFrame :=
  if df.cols.contains c then
    (mapOption (updateCell c f) df.rows).map (fun rs => ⟨df.cols, rs⟩)
  else
    none

/-- Iterate a rule dictionary over its columns in insertion order, the
shared shape of `change_datatype`, `regex_on_column` and
`format_csv_data`. -/
def applyRules {ρ : Type} (cellFn : ρ → Value → Option Value) :
    List (String × ρ) → DataFrame → Option DataFrame
  | [], df => some df
  | (c, a) :: rest, df =>
    match applyRule c (cellFn a) df with
    | some df' => applyRules cellFn rest df'
    | none => none

/-- The `setup_things` rule set read from `config.ini` (column subset,
datatype rules, regex rules, format rules). -/
structure Rules where
  requiredFields : Option (List String)
  datatypeRule : Option (List (String × Datatype))
  regexRule : Option (List (String × String))
  formatRule : Option (List (String × FormatMode))
deriving DecidableEq, Repr

/-- The file system visible to `pd.read_csv`: path to the frame pandas
would produce for that file (dtype inference included). -/
abbrev Env := List (String × DataFrame)

/-- Restriction to `usecols`: pandas keeps the file's own column
order. -/
def selectCols (cs : List String) (df : DataFrame) : DataFrame :=
  ⟨df.cols.filter (fun c => cs.contains c),
   df.rows.map (fun r => r.filter (fun kv => cs.contains kv.1))⟩

/-- `LoadData.read_csv`: load the frame for the path, restricted to
`cols` when given; a missing file or unknown requested column raises,
caught and re-raised as HTTP 500 (none here). -/
def read_csv (env : Env) (path : String) (cols : Option (List String)) : Option DataFrame :=
  match lookupStr env path with
  | none => none
  | some df =>
    match cols with
    | none => some df
    | some cs =>
      if cs.all (fun c => df.cols.contains c) then some (selectCols cs df) else none

/-- `LoadData.change_datatype`. -/
def change_datatype (rule : Option (List (String × Datatype))) (df : DataFrame) :
    Option DataFrame :=
  match rule with
  | none => some df
  | some rs => applyRules coerceValue rs df

/-- `LoadData.regex_on_column`. -/
def regex_on_column (rule : Option (List (String × String))) (df : DataFrame) :
    Option DataFrame :=
  match rule with
  | none => some df
  | some rs => applyRules regexCell rs df

/-- `LoadData.format_csv_data`. -/
def format_csv_data (rule : Option (List (String × FormatMode))) (df : DataFrame) :
    Option DataFrame :=
  match rule with
  | none => some df
  | some rs => applyRules formatCell rs df

/-- The mutable state of a `LoadData` object: the `csv_data` path and
the `dataframe` attribute (`None` until `read_csv` ran). -/
structure LoadDataSt where
  csv_data : String
  dataframe : Option DataFrame
deriving DecidableEq, Repr

/-- `LoadData.setup_things`: read the csv (with the required columns),
change datatypes, apply the regex rules, format — strictly in that
order, each step fatal on failure.  The resulting object keeps its
`csv_data` and holds the prepared frame. -/
def setup_things (env : Env) (cfg : Rules) (self : LoadDataSt) : Option LoadDataSt :=
  match read_csv env self.csv_data cfg.requiredFields with
  | none => none
  | some df0 =>
    match change_datatype cfg.datatypeRule df0 with
    | none => none
    | some df1 =>
      match regex_on_column cfg.regexRule df1 with
      | none => none
      | some df2 =>
        match format_csv_data cfg.formatRule df2 with
        | none => none
        | some df3 => some ⟨self.csv_data, some df3⟩

/-- The prepared store a successful setup ends with, for a fresh
`LoadData(path)` object. -/
def setupStore (env : Env) (cfg : Rules) (path : String) : Option DataFrame :=
  match setup_things env cfg ⟨path, none⟩ with
  | none => none
  | some st => st.dataframe

/-- Outcome of `filter_by_pincode`: the 200 `JSONResponse` with the
matching records, the 404 `HTTPException`, or an uncaught Python
error. -/
inductive FilterResult where
  | jsonResponse (status : Nat) (content : List Row)
  | httpException (status : Nat) (detail : String)
  | keyError (column : String)
  | attributeError
deriving DecidableEq, Repr

/-- The pandas row mask `tmp_dataframe["Pincode"] == pincode`: exact
equality of the cell with the integer; a string or boolean cell is
simply unequal. -/
def rowMatchesPincode (r : Row) (pincode : Int) : Bool :=
  lookupStr r "Pincode" == some (Value.vInt pincode)

/-- `LoadData.filter_by_pincode` on the frame: keep exactly the rows
whose `Pincode` cell equals the key, in order; raise the 404
`HTTPException` when none match; `df["Pincode"]` on a frame without
that column is a `KeyError`. -/
def filter_by_pincode (df : DataFrame) (pincode : Int) : FilterResult :=
  if df.cols.contains "Pincode" then
    let matched := df.rows.filter (fun r => rowMatchesPincode r pincode)
    if matched.isEmpty then
      .httpException 404 ("Pincode " ++ toString pincode ++ " not found")
    else
      .jsonResponse 200 matched
  else
    .keyError "Pincode"

/-- The method run against the object state: the source copies
`self.dataframe` into the local `tmp_dataframe`, works only on the
copy and never assigns `self.dataframe`, so the state is returned
unchanged; `None.copy()` before setup is an `AttributeError`. -/
def filter_by_pincode_state (self : LoadDataSt) (pincode : Int) :
    FilterResult × LoadDataSt :=
  match self.dataframe with
  | none => (.attributeError, self)
  | some df => (filter_by_pincode df pincode, self)

/-- `MySingleton.__new__`: on a `None` class attribute build
`LoadData(CSV_FILE)`, run `setup_things` on it and cache it; otherwise
return the cached instance.  The pair is (value returned — `none`
models the setup exception propagating —, class attribute after the
call).  When setup raises, the attribute keeps the half-built object
the source already assigned. -/
def MySingleton_new (env : Env) (cfg : Rules) (csvFile : String) :
    Option LoadDataSt → Option LoadDataSt × Option LoadDataSt
  | some inst => (some inst, some inst)
  | none =>
    let ld0 : LoadDataSt := { csv_data := csvFile, dataframe := none }
    match setup_things env cfg ld0 with
    | some ld => (some ld, some ld)
    | none => (none, some ld0)


/-! ## Concrete fixtures used by witnesses and counterexamples -/

/-- A four-column source frame shaped like the official pincode CSV,
with `Pincode` read as raw text so the datatype rule has work to do. -/
def officePinFrame : DataFrame :=
  ⟨["Office Name", "Pincode", "District", "StateName"],
   [[("Office Name", .vStr "Adilabad S.O"), ("Pincode", .vStr "504001"),
     ("District", .vStr "ADILABAD"), ("StateName", .vStr "TELANGANA")],
    [("Office Name", .vStr "Delhi B.O"), ("Pincode", .vStr "110001"),
     ("District", .vStr "NEW DELHI"), ("StateName", .vStr "DELHI")],
    [("Office Name", .vStr "Adilabad X S.O"), ("Pincode", .vStr "504001"),
     ("District", .vStr "ADILABAD"), ("StateName", .vStr "TELANGANA")]]⟩

def pincodeEnv : Env := [("pincode.csv", officePinFrame)]

def pincodeRules : Rules :=
  { requiredFields := some ["Office Name", "Pincode", "District", "StateName"],
    datatypeRule := some [("Pincode", .int)],
    regexRule := some [("Office Name", " S.O")],
    formatRule := some [("District", .title)] }

/-- The store `setup_things` produces from `officePinFrame` under
`pincodeRules`. -/
def preparedFrame : DataFrame :=
  ⟨["Office Name", "Pincode", "District", "StateName"],
   [[("Office Name", .vStr "Adilabad"), ("Pincode", .vInt 504001),
     ("District", .vStr "Adilabad"), ("StateName", .vStr "TELANGANA")],
    [("Office Name", .vStr "Delhi B.O"), ("Pincode", .vInt 110001),
     ("District", .vStr "New Delhi"), ("StateName", .vStr "DELHI")],
    [("Office Name", .vStr "Adilabad X"), ("Pincode", .vInt 504001),
     ("District", .vStr "Adilabad"), ("StateName", .vStr "TELANGANA")]]⟩

def preparedStore : LoadDataSt := ⟨"pincode.csv", some preparedFrame⟩

/-- One-column fixture whose cell "aabb" leaves a fresh match of the
pattern "ab" behind after the regex deletion pass. -/
def regexLeftoverFrame : DataFrame := ⟨["A"], [[("A", .vStr "aabb")]]⟩

def regexLeftoverEnv : Env := [("data.csv", regexLeftoverFrame)]

def regexLeftoverRules : Rules :=
  { requiredFields := none, datatypeRule := none,
    regexRule := some [("A", "ab")], formatRule := none }

/-- Does some cell of column `c` still contain a match of `pat`? -/
def someCellMatches (c pat : String) (df : DataFrame) : Bool :=
  df.rows.any fun r =>
    match lookupStr r c with
    | some (.vStr s) => containsMatch pat s
    | _ => false

/-- Every cell of column `c` in the frame has the datatype `dt` — the
spec's "the retained column has the declared datatype". -/
def colTyped (c : String) (dt : Datatype) (df : DataFrame) : Prop :=
  ∀ r ∈ df.rows, ∀ v, lookupStr r c = some v → v.typeOf = dt

/-! ## Facts about digit characters and parsing -/

theorem isDigit_toNat_bounds {c : Char} (h : c.isDigit = true) :
    48 ≤ c.toNat ∧ c.toNat ≤ 57 := by
  simp [Char.isDigit] at h
  exact ⟨h.1, h.2⟩

theorem isDigit_ne_dash {c : Char} (h : c.isDigit = true) : c ≠ '-' := by
  intro he; subst he; simp at h

theorem isDigit_ne_plus {c : Char} (h : c.isDigit = true) : c ≠ '+' := by
  intro he; subst he; simp at h

theorem isDigit_ne_zero_toNat {c : Char} (h : c.isDigit = true) (h0 : c ≠ '0') :
    49 ≤ c.toNat := by
  have hb := isDigit_toNat_bounds h
  rcases Nat.lt_or_ge c.toNat 49 with hlt | hge
  · exfalso
    apply h0
    have he : c.toNat = ('0' : Char).toNat := by
      have : c.toNat = 48 := by omega
      simpa using this
    exact Char.ext (UInt32.ext he)
  · exact hge

theorem isDigit_not_pySpace {c : Char} (h : c.isDigit = true) :
    ¬ isPySpace c = true := by
  intro hs
  simp only [isPySpace, Bool.or_eq_true, decide_eq_true_eq] at hs
  rcases hs with ((((h' | h') | h') | h') | h') | h'
  all_goals (subst h'; simp at h)

theorem pyStrip_of_digits {l : List Char} (h : ∀ c ∈ l, c.isDigit = true) :
    pyStrip l = l := by
  have hns : ∀ c ∈ l, ¬ isPySpace c = true := fun c hc => isDigit_not_pySpace (h c hc)
  have h1 : l.dropWhile isPySpace = l := by
    cases l with
    | nil => rfl
    | cons a as =>
      rw [List.dropWhile_cons]
      simp [hns a (by simp)]
  have h2 : l.reverse.dropWhile isPySpace = l.reverse := by
    cases hr : l.reverse with
    | nil => rfl
    | cons a as =>
      rw [List.dropWhile_cons]
      have ha : a ∈ l := by
        have : a ∈ l.reverse := by rw [hr]; simp
        simpa using this
      simp [hns a ha]
  unfold pyStrip
  rw [h1, h2, List.reverse_reverse]

theorem digits_foldl_lb (cs : List Char) :
    ∀ acc : Nat, acc * 10 ^ cs.length ≤ cs.foldl (fun acc c => 10 * acc + digitVal c) acc := by
  induction cs with
  | nil => intro acc; simp
  | cons c cs ih =>
    intro acc
    have step : (c :: cs).foldl (fun acc c => 10 * acc + digitVal c) acc
        = cs.foldl (fun acc c => 10 * acc + digitVal c) (10 * acc + digitVal c) := rfl
    rw [step]
    calc acc * 10 ^ (c :: cs).length
        = (10 * acc) * 10 ^ cs.length := by
          simp [List.length_cons, pow_succ]; ring
      _ ≤ (10 * acc + digitVal c) * 10 ^ cs.length :=
          Nat.mul_le_mul_right _ (by omega)
      _ ≤ cs.foldl (fun acc c => 10 * acc + digitVal c) (10 * acc + digitVal c) :=
          ih _

theorem digits_foldl_ub (cs : List Char) (h : ∀ c ∈ cs, c.isDigit = true) :
    ∀ acc : Nat, cs.foldl (fun acc c => 10 * acc + digitVal c) acc < (acc + 1) * 10 ^ cs.length := by
  induction cs with
  | nil => intro acc; simp
  | cons c cs ih =>
    intro acc
    have hd : digitVal c ≤ 9 := by
      have := isDigit_toNat_bounds (h c (by simp))
      unfold digitVal
      omega
    have step : (c :: cs).foldl (fun acc c => 10 * acc + digitVal c) acc
        = cs.foldl (fun acc c => 10 * acc + digitVal c) (10 * acc + digitVal c) := rfl
    rw [step]
    calc cs.foldl (fun acc c => 10 * acc + digitVal c) (10 * acc + digitVal c)
        < (10 * acc + digitVal c + 1) * 10 ^ cs.length :=
          ih (fun c hc => h c (by simp [hc])) _
      _ ≤ ((acc + 1) * 10) * 10 ^ cs.length :=
          Nat.mul_le_mul_right _ (by omega)
      _ = (acc + 1) * 10 ^ (c :: cs).length := by
          simp [List.length_cons, pow_succ]; ring

theorem pyParseInt_of_digits {s : String} {c0 : Char} {cs : List Char}
    (hl : s.toList = c0 :: cs) (hdig : ∀ c ∈ s.toList, c.isDigit = true) :
    pyParseInt s =
      some (((c0 :: cs).foldl (fun acc c => 10 * acc + digitVal c) 0 : Nat) : Int) := by
  rw [hl] at hdig
  have hstrip : pyStrip s.toList = c0 :: cs := by
    rw [hl]; exact pyStrip_of_digits hdig
  have hd0 : c0.isDigit = true := hdig c0 (by simp)
  have hdigs : strToNatDigits (c0 :: cs) =
      some ((c0 :: cs).foldl (fun acc c => 10 * acc + digitVal c) 0) := by
    unfold strToNatDigits
    rw [if_pos]
    exact ⟨by simp, List.all_eq_true.mpr (fun c hc => hdig c hc)⟩
  simp only [pyParseInt, hstrip]
  rw [if_neg (isDigit_ne_dash hd0), if_neg (isDigit_ne_plus hd0), hdigs]
  rfl

/-! ## Claims about the Validator -/

/-- C2, counterexample: the text "012345" consists of exactly six
numeric digits, yet `validate_pincode` rejects it: `int("012345")`
drops the leading zero, and the logarithm-based length of 12345 is 5,
so the claim "every 6-numeric-digit text is valid" fails on the code. -/
theorem validate_pincode_leading_zero_counterexample :
    isSixDigitNumeric "012345" = true ∧
    validate_pincode "012345" =
      { status := false, content := some "Pincode must contain only 6 digits." } := by
  constructor
  · decide
  · have hp : pyParseInt "012345" = some 12345 := rfl
    have ht : (12345 : Int).toNat = 12345 := rfl
    have hl : Nat.log 10 (12345 : Int).toNat = 4 := by
      rw [ht]
      exact Nat.log_eq_of_pow_le_of_lt_pow (by norm_num) (by norm_num)
    norm_num [validate_pincode, hp, hl]

/-- C2, amended: every text of exactly six numeric digits whose first
digit is not '0' is accepted by `validate_pincode` (status true, no
message). -/
theorem validate_pincode_six_digits_valid (s : String)
    (h6 : s.toList.length = 6)
    (hdig : ∀ c ∈ s.toList, c.isDigit = true)
    (h0 : s.toList.head? ≠ some '0') :
    validate_pincode s = { status := true, content := none } := by
  cases hl : s.toList with
  | nil => rw [hl] at h6; simp at h6
  | cons c0 cs =>
    have hparse := pyParseInt_of_digits hl hdig
    rw [hl] at h6 hdig h0
    have hd0 : c0.isDigit = true := hdig c0 (by simp)
    have hc0 : c0 ≠ '0' := by
      intro he; rw [he] at h0; simp at h0
    have hlen : cs.length = 5 := by simpa using h6
    set val := (c0 :: cs).foldl (fun acc c => 10 * acc + digitVal c) 0 with hval
    have hstep : val = cs.foldl (fun acc c => 10 * acc + digitVal c) (digitVal c0) := by
      rw [hval]
      simp only [List.foldl_cons, Nat.mul_zero, Nat.zero_add]
    have hlb : digitVal c0 * 10 ^ 5 ≤ val := by
      rw [hstep, ← hlen]; exact digits_foldl_lb cs _
    have hub : val < (digitVal c0 + 1) * 10 ^ 5 := by
      rw [hstep, ← hlen]
      exact digits_foldl_ub cs (fun c hc => hdig c (by simp [hc])) _
    have hd0lb : 1 ≤ digitVal c0 := by
      have := isDigit_ne_zero_toNat hd0 hc0; unfold digitVal; omega
    have hd0ub : digitVal c0 ≤ 9 := by
      have := isDigit_toNat_bounds hd0; unfold digitVal; omega
    have h1 : 10 ^ 5 ≤ val := le_trans (by omega) hlb
    have h2 : val < 10 ^ 6 := by
      have h2a : (digitVal c0 + 1) * 10 ^ 5 ≤ 10 ^ 6 := by
        calc (digitVal c0 + 1) * 10 ^ 5 ≤ 10 * 10 ^ 5 :=
              Nat.mul_le_mul_right _ (by omega)
          _ = 10 ^ 6 := by norm_num
      omega
    have hlog : Nat.log 10 val = 5 := Nat.log_eq_of_pow_le_of_lt_pow h1 h2
    have hpos : (0 : Int) < (val : Int) := by
      have : 0 < val := lt_of_lt_of_le (by norm_num) h1
      exact_mod_cast this
    have htn : ((val : Int)).toNat = val := Int.toNat_natCast val
    simp [validate_pincode, hparse, hpos, htn, hlog]

/-- C2, witness: "533344" is a six-digit numeric text not starting
with '0', and the validator accepts it. -/
theorem validate_pincode_six_digits_valid_witness :
    ("533344".toList.length = 6) ∧ (∀ c ∈ "533344".toList, c.isDigit = true) ∧
    ("533344".toList.head? ≠ some '0') ∧
    validate_pincode "533344" = { status := true, content := none } :=
  ⟨by decide, by decide, by decide,
    validate_pincode_six_digits_valid "533344" (by decide) (by decide) (by decide)⟩

/-- C5, counterexample: "0" converts to the integer 0, whose decimal
digit count is 1 ≠ 6, yet the validator answers with the format
message "Invalid pincode." (the `math.log10` domain error), not the
digit-count message the claim requires. -/
theorem validate_pincode_zero_counterexample :
    pyParseInt "0" = some 0 ∧ decimalDigitCount 0 = 1 ∧
    validate_pincode "0" = { status := false, content := some "Invalid pincode." } := by
  refine ⟨rfl, ?_, rfl⟩
  simp [decimalDigitCount]

/-- C5, amended: every text converting to a *positive* integer whose
decimal digit count is not 6 is rejected with the digit-count
message. -/
theorem validate_pincode_wrong_digit_count_message (s : String) (n : Int)
    (hp : pyParseInt s = some n) (hpos : 0 < n) (hcount : decimalDigitCount n ≠ 6) :
    validate_pincode s =
      { status := false, content := some "Pincode must contain only 6 digits." } := by
  have habs : n.natAbs = n.toNat := by omega
  have h6 : ¬ (Nat.log 10 n.toNat + 1 = 6) := by
    unfold decimalDigitCount at hcount
    rw [habs] at hcount
    exact hcount
  simp [validate_pincode, hp, hpos, h6]

/-- C5, witness: "5333" parses to 5333 (4 digits) and is rejected with
the digit-count message. -/
theorem validate_pincode_wrong_digit_count_message_witness :
    pyParseInt "5333" = some 5333 ∧ (0 : Int) < 5333 ∧ decimalDigitCount 5333 ≠ 6 ∧
    validate_pincode "5333" =
      { status := false, content := some "Pincode must contain only 6 digits." } := by
  have hlog : Nat.log 10 (5333 : Int).natAbs = 3 := by
    have habs : (5333 : Int).natAbs = 5333 := rfl
    rw [habs]
    exact Nat.log_eq_of_pow_le_of_lt_pow (by norm_num) (by norm_num)
  have hc : decimalDigitCount 5333 ≠ 6 := by
    rw [decimalDigitCount_eq, hlog]
    norm_num
  exact ⟨rfl, by norm_num, hc,
    validate_pincode_wrong_digit_count_message "5333" 5333 rfl (by norm_num) hc⟩

/-- C6: every text on which the integer conversion fails is rejected
with the format message "Invalid pincode.". -/
theorem validate_pincode_parse_failure_message (s : String)
    (hp : pyParseInt s = none) :
    validate_pincode s = { status := false, content := some "Invalid pincode." } := by
  simp [validate_pincode, hp]

/-- C6, witness: "abcdef" does not convert and gets the format
message. -/
theorem validate_pincode_parse_failure_message_witness :
    pyParseInt "abcdef" = none ∧
    validate_pincode "abcdef" = { status := false, content := some "Invalid pincode." } :=
  ⟨rfl, validate_pincode_parse_failure_message "abcdef" rfl⟩

/-- C10: every text converting to a non-positive integer is rejected
with the format message, because `math.log10` raises a domain
`ValueError` caught by the conversion-failure handler. -/
theorem validate_pincode_nonpositive_message (s : String) (n : Int)
    (hp : pyParseInt s = some n) (hnp : n ≤ 0) :
    validate_pincode s = { status := false, content := some "Invalid pincode." } := by
  simp [validate_pincode, hp, not_lt.mpr hnp]

/-- C10, witness: "-533344" parses to a negative integer and gets the
format message. -/
theorem validate_pincode_nonpositive_message_witness :
    pyParseInt "-533344" = some (-533344) ∧ ((-533344 : Int) ≤ 0) ∧
    validate_pincode "-533344" = { status := false, content := some "Invalid pincode." } :=
  ⟨rfl, by norm_num,
    validate_pincode_nonpositive_message "-533344" (-533344) rfl (by norm_num)⟩

/-! ## Claims about the Dataset Store -/

/-- C1: on any store a successful setup built, for any integer key
with at least one matching record, `filter_by_pincode` answers 200
with exactly the rows whose `Pincode` cell equals the key — exact
integer equality, in the store's original row order. -/
theorem filter_by_pincode_exact_matches (env : Env) (cfg : Rules) (path : String)
    (df : DataFrame) (p : Int)
    (hsetup : setupStore env cfg path = some df)
    (hcol : df.cols.contains "Pincode" = true)
    (hne : df.rows.filter (fun r => rowMatchesPincode r p) ≠ []) :
    filter_by_pincode df p =
      .jsonResponse 200 (df.rows.filter (fun r => rowMatchesPincode r p)) := by
  unfold filter_by_pincode
  rw [if_pos hcol]
  cases hf : df.rows.filter (fun r => rowMatchesPincode r p) with
  | nil => exact absurd hf hne
  | cons a as => simp [hf]

/-- C1, witness: the prepared fixture store answers key 504001 with
its first and third rows, in order. -/
theorem filter_by_pincode_exact_matches_witness :
    setupStore pincodeEnv pincodeRules "pincode.csv" = some preparedFrame ∧
    preparedFrame.cols.contains "Pincode" = true ∧
    preparedFrame.rows.filter (fun r => rowMatchesPincode r 504001) ≠ [] ∧
    filter_by_pincode preparedFrame 504001 =
      .jsonResponse 200 (preparedFrame.rows.filter (fun r => rowMatchesPincode r 504001)) :=
  ⟨by decide, by decide, by decide,
    filter_by_pincode_exact_matches pincodeEnv pincodeRules "pincode.csv"
      preparedFrame 504001 (by decide) (by decide) (by decide)⟩

/-- C4: on any store holding the `Pincode` column, a key matching zero
records makes `filter_by_pincode` raise the `HTTPException` with
status 404 and detail "Pincode <value> not found". -/
theorem filter_by_pincode_not_found_404 (df : DataFrame) (p : Int)
    (hcol : df.cols.contains "Pincode" = true)
    (hempty : df.rows.filter (fun r => rowMatchesPincode r p) = []) :
    filter_by_pincode df p =
      .httpException 404 ("Pincode " ++ toString p ++ " not found") := by
  unfold filter_by_pincode
  rw [if_pos hcol]
  simp [hempty]

/-- C4, witness: key 999999 matches nothing in the fixture store and
yields the 404 with the message naming 999999. -/
theorem filter_by_pincode_not_found_404_witness :
    preparedFrame.cols.contains "Pincode" = true ∧
    preparedFrame.rows.filter (fun r => rowMatchesPincode r 999999) = [] ∧
    filter_by_pincode preparedFrame 999999 =
      .httpException 404 ("Pincode " ++ toString (999999 : Int) ++ " not found") :=
  ⟨by decide, by decide,
    filter_by_pincode_not_found_404 preparedFrame 999999 (by decide) (by decide)⟩

/-- C9: `filter_by_pincode` never mutates the store: the `LoadData`
state after the query — success, 404, or pre-setup error — is the state
before it (the source works on `tmp_dataframe`, a copy, and never
assigns `self.dataframe`). -/
theorem filter_by_pincode_state_readonly (self : LoadDataSt) (p : Int) :
    (filter_by_pincode_state self p).2 = self := by
  cases hd : self.dataframe with
  | none => simp [filter_by_pincode_state, hd]
  | some df => simp [filter_by_pincode_state, hd]

/-- C7: setup is idempotent — a second `setup_things` run on the store
the first run produced re-reads the same file with the same rules and
returns that very store, record for record. -/
theorem setup_things_idempotent (env : Env) (cfg : Rules) (st st₁ : LoadDataSt)
    (h : setup_things env cfg st = some st₁) :
    setup_things env cfg st₁ = some st₁ := by
  cases h0 : read_csv env st.csv_data cfg.requiredFields with
  | none => simp [setup_things, h0] at h
  | some df0 =>
    cases h1 : change_datatype cfg.datatypeRule df0 with
    | none => simp [setup_things, h0, h1] at h
    | some df1 =>
      cases h2 : regex_on_column cfg.regexRule df1 with
      | none => simp [setup_things, h0, h1, h2] at h
      | some df2 =>
        cases h3 : format_csv_data cfg.formatRule df2 with
        | none => simp [setup_things, h0, h1, h2, h3] at h
        | some df3 =>
          simp only [setup_things, h0, h1, h2, h3, Option.some.injEq] at h
          subst h
          simp [setup_things, h0, h1, h2, h3]

/-- C7, witness: running setup on the fixture store a second time
returns the identical store. -/
theorem setup_things_idempotent_witness :
    setup_things pincodeEnv pincodeRules ⟨"pincode.csv", none⟩ = some preparedStore ∧
    setup_things pincodeEnv pincodeRules preparedStore = some preparedStore :=
  ⟨by decide,
    setup_things_idempotent pincodeEnv pincodeRules ⟨"pincode.csv", none⟩
      preparedStore (by decide)⟩

/-- C8: when the first `MySingleton()` call finds no instance it runs
setup and caches the result; afterwards every call — under any
environment, rule set or file name, i.e. without re-running setup —
returns that same cached instance and leaves it cached. -/
theorem mySingleton_setup_once_then_cached (env : Env) (cfg : Rules) (f : String)
    (ld : LoadDataSt) (h : setup_things env cfg ⟨f, none⟩ = some ld) :
    MySingleton_new env cfg f none = (some ld, some ld) ∧
    ∀ (env' : Env) (cfg' : Rules) (f' : String),
      MySingleton_new env' cfg' f' (some ld) = (some ld, some ld) := by
  constructor
  · simp [MySingleton_new, h]
  · intro env' cfg' f'
    rfl

/-- C8, witness: the first call on the fixture builds and caches the
prepared store; a second call — even with an empty environment and
different rules — returns the identical instance. -/
theorem mySingleton_setup_once_then_cached_witness :
    setup_things pincodeEnv pincodeRules ⟨"pincode.csv", none⟩ = some preparedStore ∧
    MySingleton_new pincodeEnv pincodeRules "pincode.csv" none =
      (some preparedStore, some preparedStore) ∧
    MySingleton_new [] ⟨none, none, none, none⟩ "other.csv" (some preparedStore) =
      (some preparedStore, some preparedStore) :=
  ⟨by decide,
    (mySingleton_setup_once_then_cached pincodeEnv pincodeRules "pincode.csv"
      preparedStore (by decide)).1,
    (mySingleton_setup_once_then_cached pincodeEnv pincodeRules "pincode.csv"
      preparedStore (by decide)).2 [] ⟨none, none, none, none⟩ "other.csv"⟩

/-! ## Column-transform lemmas for the setup invariant -/

theorem mapOption_forall2 {α β : Type} (f : α → Option β) :
    ∀ {l : List α} {l' : List β}, mapOption f l = some l' →
      List.Forall₂ (fun a b => f a = some b) l l' := by
  intro l
  induction l with
  | nil =>
    intro l' h
    simp only [mapOption, Option.some.injEq] at h
    subst h
    exact .nil
  | cons a as ih =>
    intro l' h
    cases hfa : f a with
    | none => simp [mapOption, hfa] at h
    | some b =>
      cases hm : mapOption f as with
      | none => simp [mapOption, hfa, hm] at h
      | some bs =>
        simp only [mapOption, hfa, hm, Option.some.injEq] at h
        subst h
        exact .cons hfa (ih hm)

theorem updateCell_lookup_eq {c : String} {f : Value → Option Value} :
    ∀ {r r' : Row}, updateCell c f r = some r' →
      lookupStr r' c = (lookupStr r c).bind f := by
  intro r
  induction r with
  | nil =>
    intro r' h
    simp only [updateCell, Option.some.injEq] at h
    subst h
    simp [lookupStr]
  | cons kv rest ih =>
    intro r' h
    obtain ⟨k, v⟩ := kv
    by_cases hk : k = c
    · subst hk
      cases hfv : f v with
      | none => simp [updateCell, hfv] at h
      | some w =>
        cases hrest : updateCell k f rest with
        | none => simp [updateCell, hfv, hrest] at h
        | some rest' =>
          simp only [updateCell, eq_self_iff_true, if_true, ite_true, hfv, hrest, Option.some.injEq] at h
          subst h
          simp [lookupStr, hfv]
    · cases hrest : updateCell c f rest with
      | none => simp [updateCell, hk, hrest] at h
      | some rest' =>
        simp only [updateCell, if_neg hk, hrest, Option.some.injEq] at h
        subst h
        simp [lookupStr, hk, ih hrest]

theorem updateCell_lookup_ne {c c' : String} (hne : c' ≠ c) {f : Value → Option Value} :
    ∀ {r r' : Row}, updateCell c f r = some r' →
      lookupStr r' c' = lookupStr r c' := by
  intro r
  induction r with
  | nil =>
    intro r' h
    simp only [updateCell, Option.some.injEq] at h
    subst h
    rfl
  | cons kv rest ih =>
    intro r' h
    obtain ⟨k, v⟩ := kv
    by_cases hk : k = c
    · subst hk
      cases hfv : f v with
      | none => simp [updateCell, hfv] at h
      | some w =>
        cases hrest : updateCell k f rest with
        | none => simp [updateCell, hfv, hrest] at h
        | some rest' =>
          simp only [updateCell, eq_self_iff_true, if_true, ite_true, hfv, hrest, Option.some.injEq] at h
          subst h
          have hkc : ¬ k = c' := fun hkc => hne hkc.symm
          simp [lookupStr, hkc, ih hrest]
    · cases hrest : updateCell c f rest with
      | none => simp [updateCell, hk, hrest] at h
      | some rest' =>
        simp only [updateCell, if_neg hk, hrest, Option.some.injEq] at h
        subst h
        by_cases hkk : k = c'
        · simp [lookupStr, hkk]
        · simp [lookupStr, hkk, ih hrest]

theorem applyRule_spec {c : String} {f : Value → Option Value} {df df' : DataFrame}
    (h : applyRule c f df = some df') :
    df'.cols = df.cols ∧
    List.Forall₂ (fun r r' => updateCell c f r = some r') df.rows df'.rows := by
  unfold applyRule at h
  by_cases hc : df.cols.contains c = true
  · rw [if_pos hc] at h
    cases hm : mapOption (updateCell c f) df.rows with
    | none => rw [hm] at h; simp at h
    | some rs =>
      rw [hm] at h
      simp only [Option.map_some', Option.some.injEq] at h
      subst h
      exact ⟨rfl, mapOption_forall2 _ hm⟩
  · rw [if_neg hc] at h
    simp at h

theorem forall2_trans {α β γ : Type} {P : α → β → Prop} {Q : β → γ → Prop}
    {R : α → γ → Prop} (h : ∀ a b c, P a b → Q b c → R a c) :
    ∀ {l₁ : List α} {l₂ : List β} {l₃ : List γ},
      List.Forall₂ P l₁ l₂ → List.Forall₂ Q l₂ l₃ → List.Forall₂ R l₁ l₃ := by
  intro l₁ l₂ l₃ h12 h23
  induction h12 generalizing l₃ with
  | nil =>
    cases h23
    exact .nil
  | cons hab htail ih =>
    cases h23 with
    | cons hbc htail' => exact .cons (h _ _ _ hab hbc) (ih htail')

theorem forall2_mem_right {α β : Type} {P : α → β → Prop} :
    ∀ {l : List α} {l' : List β}, List.Forall₂ P l l' →
      ∀ b ∈ l', ∃ a ∈ l, P a b := by
  intro l l' h
  induction h with
  | nil =>
    intro b hb
    simp at hb
  | cons hab htail ih =>
    intro b hb
    rcases List.mem_cons.mp hb with he | hm
    · subst he
      exact ⟨_, by simp, hab⟩
    · obtain ⟨a, ha, hpa⟩ := ih _ hm
      exact ⟨a, by simp [ha], hpa⟩

theorem applyRules_lookup_unruled {ρ : Type} {cellFn : ρ → Value → Option Value}
    {c : String} :
    ∀ {rs : List (String × ρ)} {df df' : DataFrame},
      applyRules cellFn rs df = some df' → c ∉ rs.map Prod.fst →
      List.Forall₂ (fun r r' => lookupStr r' c = lookupStr r c) df.rows df'.rows := by
  intro rs
  induction rs with
  | nil =>
    intro df df' h _
    simp only [applyRules, Option.some.injEq] at h
    subst h
    exact List.forall₂_same.mpr (fun r _ => rfl)
  | cons hd rest ih =>
    intro df df' h hni
    obtain ⟨c₀, a₀⟩ := hd
    cases happ : applyRule c₀ (cellFn a₀) df with
    | none => simp [applyRules, happ] at h
    | some df₁ =>
      simp only [applyRules, happ] at h
      have hcc : c ≠ c₀ ∧ c ∉ rest.map Prod.fst := by
        constructor
        · intro he; exact hni (by simp [he])
        · intro hm; exact hni (by simp [hm])
      have step1 : List.Forall₂ (fun r r' => lookupStr r' c = lookupStr r c)
          df.rows df₁.rows :=
        (applyRule_spec happ).2.imp (fun _ _ hupd => updateCell_lookup_ne hcc.1 hupd)
      have step2 := ih h hcc.2
      exact forall2_trans (fun r₀ r₁ r₂ h01 h12 => h12.trans h01) step1 step2

theorem applyRules_lookup_ruled {ρ : Type} {cellFn : ρ → Value → Option Value} :
    ∀ {rs : List (String × ρ)} {df df' : DataFrame} {c : String} {a : ρ},
      applyRules cellFn rs df = some df' → (rs.map Prod.fst).Nodup → (c, a) ∈ rs →
      List.Forall₂ (fun r r' => lookupStr r' c = (lookupStr r c).bind (cellFn a))
        df.rows df'.rows := by
  intro rs
  induction rs with
  | nil =>
    intro df df' c a _ _ hmem
    simp at hmem
  | cons hd rest ih =>
    intro df df' c a h hnd hmem
    obtain ⟨c₀, a₀⟩ := hd
    cases happ : applyRule c₀ (cellFn a₀) df with
    | none => simp [applyRules, happ] at h
    | some df₁ =>
      simp only [applyRules, happ] at h
      have hnd' : c₀ ∉ rest.map Prod.fst ∧ (rest.map Prod.fst).Nodup := by
        simpa using hnd
      rcases List.mem_cons.mp hmem with he | hm
      · rw [Prod.mk.injEq] at he
        obtain ⟨hc, ha⟩ := he
        subst hc
        subst ha
        have rel1 : List.Forall₂
            (fun r r' => lookupStr r' c = (lookupStr r c).bind (cellFn a))
            df.rows df₁.rows :=
          (applyRule_spec happ).2.imp (fun _ _ hupd => updateCell_lookup_eq hupd)
        have rel2 : List.Forall₂ (fun r r' => lookupStr r' c = lookupStr r c)
            df₁.rows df'.rows :=
          applyRules_lookup_unruled h hnd'.1
        exact forall2_trans (fun r₀ r₁ r₂ h01 h12 => h12.trans h01) rel1 rel2
      · have hc : c ≠ c₀ := by
          intro he
          exact hnd'.1 (he ▸ List.mem_map.mpr ⟨(c, a), hm, rfl⟩)
        have rel1 : List.Forall₂ (fun r r' => lookupStr r' c = lookupStr r c)
            df.rows df₁.rows :=
          (applyRule_spec happ).2.imp (fun _ _ hupd => updateCell_lookup_ne hc hupd)
        have rel2 := ih h hnd'.2 hm
        exact forall2_trans (fun r₀ r₁ r₂ h01 h12 => h12.trans (h01 ▸ rfl)) rel1 rel2

theorem coerceValue_typeOf {dt : Datatype} {v w : Value}
    (h : coerceValue dt v = some w) : w.typeOf = dt := by
  cases dt with
  | string =>
    simp only [coerceValue, Option.some.injEq] at h
    subst h
    rfl
  | int =>
    cases v with
    | vStr s =>
      simp only [coerceValue] at h
      cases hp : pyParseInt s with
      | none => rw [hp] at h; simp at h
      | some n =>
        rw [hp] at h
        simp only [Option.map_some', Option.some.injEq] at h
        subst h
        rfl
    | vInt n =>
      simp only [coerceValue, Option.some.injEq] at h
      subst h
      rfl
    | vBool b =>
      simp only [coerceValue, Option.some.injEq] at h
      subst h
      rfl
  | bool =>
    simp only [coerceValue, Option.some.injEq] at h
    subst h
    rfl

theorem regexCell_typeOf {pat : String} {v w : Value}
    (h : regexCell pat v = some w) : w.typeOf = v.typeOf := by
  cases v with
  | vStr s =>
    simp only [regexCell, Option.some.injEq] at h
    subst h
    rfl
  | vInt n => simp [regexCell] at h
  | vBool b => simp [regexCell] at h

theorem formatCell_typeOf {m : FormatMode} {v w : Value}
    (h : formatCell m v = some w) : w.typeOf = v.typeOf := by
  cases v with
  | vStr s =>
    simp only [formatCell, Option.some.injEq] at h
    subst h
    rfl
  | vInt n => simp [formatCell] at h
  | vBool b => simp [formatCell] at h

theorem applyRule_preserve_colTyped {c₀ : String} {f : Value → Option Value}
    (hpres : ∀ v w, f v = some w → w.typeOf = v.typeOf)
    {df df' : DataFrame} (h : applyRule c₀ f df = some df')
    {c : String} {dt : Datatype} (ht : colTyped c dt df) : colTyped c dt df' := by
  intro r' hr' v hv
  obtain ⟨r, hr, hupd⟩ := forall2_mem_right (applyRule_spec h).2 r' hr'
  by_cases hc : c = c₀
  · subst hc
    rw [updateCell_lookup_eq hupd] at hv
    rcases Option.bind_eq_some.mp hv with ⟨u, hu, hfu⟩
    rw [hpres u v hfu]
    exact ht r hr u hu
  · rw [updateCell_lookup_ne hc hupd] at hv
    exact ht r hr v hv

theorem applyRules_preserve_colTyped {ρ : Type} {cellFn : ρ → Value → Option Value}
    (hpres : ∀ a v w, cellFn a v = some w → w.typeOf = v.typeOf) :
    ∀ {rs : List (String × ρ)} {df df' : DataFrame},
      applyRules cellFn rs df = some df' →
      ∀ {c : String} {dt : Datatype}, colTyped c dt df → colTyped c dt df' := by
  intro rs
  induction rs with
  | nil =>
    intro df df' h c dt ht
    simp only [applyRules, Option.some.injEq] at h
    subst h
    exact ht
  | cons hd rest ih =>
    intro df df' h c dt ht
    obtain ⟨c₀, a₀⟩ := hd
    cases happ : applyRule c₀ (cellFn a₀) df with
    | none => simp [applyRules, happ] at h
    | some df₁ =>
      simp only [applyRules, happ] at h
      exact ih h (applyRule_preserve_colTyped (hpres a₀) happ ht)

theorem applyRules_coerce_typed {rs : List (String × Datatype)} {df df' : DataFrame}
    (h : applyRules coerceValue rs df = some df') (hnd : (rs.map Prod.fst).Nodup)
    {c : String} {dt : Datatype} (hmem : (c, dt) ∈ rs) : colTyped c dt df' := by
  have hrel := applyRules_lookup_ruled h hnd hmem
  intro r' hr' v hv
  obtain ⟨r, hr, hl⟩ := forall2_mem_right hrel r' hr'
  rw [hl] at hv
  rcases Option.bind_eq_some.mp hv with ⟨u, hu, hcu⟩
  exact coerceValue_typeOf hcu

/-- C3, counterexample: a successful setup whose regex rule deletes
"ab" from the cell "aabb" of column "A" leaves the cell "ab" — which
still contains a match of the pattern.  Removing the leftmost
non-overlapping matches can splice a new match together, so "no cell
of a regex-ruled column contains any substring matching that column's
pattern" fails on the code. -/
theorem setup_regex_leftover_counterexample :
    setupStore regexLeftoverEnv regexLeftoverRules "data.csv" =
      some ⟨["A"], [[("A", Value.vStr "ab")]]⟩ ∧
    someCellMatches "A" "ab" ⟨["A"], [[("A", Value.vStr "ab")]]⟩ = true := by
  constructor
  · decide
  · decide

/-- C3, amended: after a successful setup (with the rule dictionaries
keyed uniquely, as Python dicts are), every datatype-ruled column of
every record has its declared datatype, and the regex and format
transforms were applied to 100 percent of the rows: the pipeline
factors through intermediate frames in which every cell of a ruled
column is exactly the transform of its pre-step value — but a
transformed cell may still contain a match of the pattern. -/
theorem setup_datatype_and_regex_applied
    (env : Env) (cfg : Rules) (st st' : LoadDataSt)
    (dtRules : List (String × Datatype)) (rxRules : List (String × String))
    (hsetup : setup_things env cfg st = some st')
    (hdtr : cfg.datatypeRule = some dtRules)
    (hrxr : cfg.regexRule = some rxRules)
    (hnd : (dtRules.map Prod.fst).Nodup)
    (hnr : (rxRules.map Prod.fst).Nodup) :
    (∀ dfF, st'.dataframe = some dfF →
      ∀ c dt, (c, dt) ∈ dtRules → colTyped c dt dfF) ∧
    (∃ df0 df1 df2 df3,
      read_csv env st.csv_data cfg.requiredFields = some df0 ∧
      change_datatype cfg.datatypeRule df0 = some df1 ∧
      regex_on_column cfg.regexRule df1 = some df2 ∧
      format_csv_data cfg.formatRule df2 = some df3 ∧
      st'.dataframe = some df3 ∧
      (∀ c pat, (c, pat) ∈ rxRules →
        List.Forall₂
          (fun r r' => lookupStr r' c = (lookupStr r c).bind (regexCell pat))
          df1.rows df2.rows) ∧
      (∀ c m fmRules, cfg.formatRule = some fmRules →
        (fmRules.map Prod.fst).Nodup → (c, m) ∈ fmRules →
        List.Forall₂
          (fun r r' => lookupStr r' c = (lookupStr r c).bind (formatCell m))
          df2.rows df3.rows)) := by
  cases h0 : read_csv env st.csv_data cfg.requiredFields with
  | none => simp [setup_things, h0] at hsetup
  | some df0 =>
    cases h1 : change_datatype cfg.datatypeRule df0 with
    | none => simp [setup_things, h0, h1] at hsetup
    | some df1 =>
      cases h2 : regex_on_column cfg.regexRule df1 with
      | none => simp [setup_things, h0, h1, h2] at hsetup
      | some df2 =>
        cases h3 : format_csv_data cfg.formatRule df2 with
        | none => simp [setup_things, h0, h1, h2, h3] at hsetup
        | some df3 =>
          simp only [setup_things, h0, h1, h2, h3, Option.some.injEq] at hsetup
          subst hsetup
          constructor
          · intro dfF hdfF c dt hmem
            have hde : df3 = dfF := by simpa using hdfF
            subst hde
            have h1' := h1
            rw [hdtr] at h1'
            simp only [change_datatype] at h1'
            have ht1 : colTyped c dt df1 := applyRules_coerce_typed h1' hnd hmem
            have h2' := h2
            rw [hrxr] at h2'
            simp only [regex_on_column] at h2'
            have ht2 : colTyped c dt df2 :=
              applyRules_preserve_colTyped (fun _ _ _ hw => regexCell_typeOf hw) h2' ht1
            cases hfm : cfg.formatRule with
            | none =>
              have h3' := h3
              rw [hfm] at h3'
              simp only [format_csv_data, Option.some.injEq] at h3'
              subst h3'
              exact ht2
            | some fs =>
              have h3' := h3
              rw [hfm] at h3'
              simp only [format_csv_data] at h3'
              exact applyRules_preserve_colTyped
                (fun _ _ _ hw => formatCell_typeOf hw) h3' ht2
          · refine ⟨df0, df1, df2, df3, rfl, h1, h2, h3, rfl, ?_, ?_⟩
            · intro c pat hmem
              have h2' := h2
              rw [hrxr] at h2'
              simp only [regex_on_column] at h2'
              exact applyRules_lookup_ruled h2' hnr hmem
            · intro c m fmRules hfm hnf hmem
              have h3' := h3
              rw [hfm] at h3'
              simp only [format_csv_data] at h3'
              exact applyRules_lookup_ruled h3' hnf hmem

/-- C3, witness: the fixture setup succeeds, its rule dictionaries are
uniquely keyed, and the prepared store's `Pincode` column indeed holds
integers everywhere. -/
theorem setup_datatype_and_regex_applied_witness :
    setup_things pincodeEnv pincodeRules ⟨"pincode.csv", none⟩ = some preparedStore ∧
    pincodeRules.datatypeRule = some [("Pincode", Datatype.int)] ∧
    pincodeRules.regexRule = some [("Office Name", " S.O")] ∧
    ([("Pincode", Datatype.int)].map Prod.fst).Nodup ∧
    ([("Office Name", " S.O")].map Prod.fst).Nodup ∧
    colTyped "Pincode" Datatype.int preparedFrame :=
  ⟨by decide, rfl, rfl, by decide, by decide,
    (setup_datatype_and_regex_applied pincodeEnv pincodeRules ⟨"pincode.csv", none⟩
        preparedStore [("Pincode", Datatype.int)] [("Office Name", " S.O")]
        (by decide) rfl rfl (by decide) (by decide)).1
      preparedFrame rfl "Pincode" Datatype.int (by decide)⟩

end Pincode
